import Mathlib

/-!
Shallow embedding of gcdeck (src/gcdeck/gcdeck.go), a deck-markup renderer
for the gio canvas.  Go float64/float32 values are modelled as exact
rationals (ℚ) and Go int as ℤ; the external drawing surface is modelled by
the list of draw calls a render function emits; the external color lookup
(giocanvas ColorLookup) is modelled as an opaque handle that retains the
color token, together with the mutable alpha byte that gcdeck sets on it.
-/

namespace Gcdeck

/-- Result of the external giocanvas `ColorLookup`: an opaque renderable
handle.  gcdeck only ever obtains colors through `ColorLookup` and then
possibly overwrites the alpha channel (`c.A = setop(...)`), so the model
keeps the looked-up token and the alpha byte. -/
structure Color where
  tok : String
  a : ℤ
  deriving DecidableEq, Repr

/-- External color-name resolution (giocanvas), modelled opaquely: the
handle remembers its token; the alpha of a fresh lookup is 255 (opaque). -/
def ColorLookup (s : String) : Color := ⟨s, 255⟩

/-- Constant mm2pt from gcdeck.go: 2.83464 (mm to pt conversion). -/
def mm2pt : ℚ := 283464 / 100000

/-- Constant linespacing from gcdeck.go: 1.8. -/
def linespacing : ℚ := 9 / 5

/-- Constant listspacing from gcdeck.go: 1.8. -/
def listspacing : ℚ := 9 / 5

/-- Constant listwrap from gcdeck.go: 95.0. -/
def listwrap : ℚ := 95

/-- Go truncating conversion of a float to an integer (`int(f)`, toward
zero), on the rational model: the numerator divided by the denominator
with truncation toward zero (Int.tdiv), exactly Go's conversion for
in-range values. -/
def gotrunc (q : ℚ) : ℤ := Int.tdiv q.num q.den

/-- setop from gcdeck.go: opacity (0..100) to an alpha byte.  `uint8(f)`
truncates toward zero, which on the positive values produced here is the
floor; for the documented opacity domain (0..100) the value fits in a
byte. -/
def setop (v : ℚ) : ℤ := if 0 < v then ⌊255 * (v / 100)⌋ else 255

/-- Go `strings.Split(s, sep)` for a one-character separator, on the
character list of the string: empty input gives one empty field, and empty
fields between adjacent separators are kept. -/
def splitChar (sep : Char) : List Char → List (List Char)
  | [] => [[]]
  | c :: rest =>
      match splitChar sep rest with
      | [] => [[]]
      | f :: fs => if c = sep then [] :: f :: fs else (c :: f) :: fs

/-- Accumulator loop for `fieldsFunc`: `cur` is the current field read so
far, in reverse. -/
def fieldsAux (p : Char → Bool) : List Char → List Char → List (List Char)
  | cur, [] => if cur = [] then [] else [cur.reverse]
  | cur, c :: rest =>
      if p c then
        if cur = [] then fieldsAux p [] rest
        else cur.reverse :: fieldsAux p [] rest
      else fieldsAux p (c :: cur) rest

/-- Go `strings.FieldsFunc(s, p)`: the maximal runs of characters on which
`p` is false, in order, with no empty fields. -/
def fieldsFunc (p : Char → Bool) (s : List Char) : List (List Char) :=
  fieldsAux p [] s

/-- Value of a run of decimal digits. -/
def digitsVal (l : List Char) : ℕ := l.foldl (fun a c => 10 * a + (c.toNat - 48)) 0

/-- Decimal part of the ParseFloat model: digits with an optional single
decimal point, at least one digit in all. -/
def parseDec (l : List Char) : Option ℚ :=
  match splitChar '.' l with
  | [a] => if a ≠ [] ∧ a.all Char.isDigit then some (digitsVal a) else none
  | [a, b] =>
      if (a ≠ [] ∨ b ≠ []) ∧ a.all Char.isDigit ∧ b.all Char.isDigit then
        some ((digitsVal a : ℚ) + (digitsVal b : ℚ) / 10 ^ b.length)
      else none
  | _ => none

/-- Lowercasing of the exponent marker, so one split handles "e" and "E". -/
def eLower (c : Char) : Char := if c = 'E' then 'e' else c

/-- Exponent field of the ParseFloat model: an optional sign followed by a
nonempty run of digits. -/
def parseExpDigits (l : List Char) : Option ℤ :=
  match l with
  | c :: rest =>
      if c = '-' then
        if rest ≠ [] ∧ rest.all Char.isDigit then some (-(digitsVal rest : ℤ)) else none
      else if c = '+' then
        if rest ≠ [] ∧ rest.all Char.isDigit then some ((digitsVal rest : ℤ)) else none
      else if (c :: rest).all Char.isDigit then some ((digitsVal (c :: rest) : ℤ)) else none
  | [] => none

/-- Mantissa with optional exponent of the ParseFloat model: the token is
split at the (lowercased) exponent marker, the mantissa parses per
parseDec, and the value is scaled by 10^exp.  Go additionally accepts hex
floats, "Inf"/"NaN" and digit-separating underscores; none occur in deck
markup, and their values (hex scaling, infinities) fall outside the
rational model. -/
def parseMantExp (l : List Char) : Option ℚ :=
  match splitChar 'e' (l.map eLower) with
  | [m] => parseDec m
  | [m, e] =>
      match parseDec m, parseExpDigits e with
      | some mv, some ev => some (mv * 10 ^ ev)
      | _, _ => none
  | _ => none

/-- Go `strconv.ParseFloat`, modelled on the decimal forms (optional sign,
digits with optional decimal point, optional e/E exponent); other strings
fail. -/
def parseFloatQ (l : List Char) : Option ℚ :=
  match l with
  | c :: rest =>
      if c = '-' then (parseMantExp rest).map Neg.neg
      else if c = '+' then parseMantExp rest
      else parseMantExp l
  | [] => none

/-- Go `unicode.IsNumber`, modelled on the ASCII range the page tokens use
(the decimal digits 0-9). -/
def goIsNumber (c : Char) : Bool := c.isDigit

/-- setpagesize from gcdeck.go: split the token into runs of number
characters; exactly two fields that both parse give (width, height),
anything else gives (0, 0). -/
def setpagesize (s : String) : ℚ × ℚ :=
  match fieldsFunc (fun c => !(goIsNumber c)) s.data with
  | [d0, d1] =>
      match parseFloatQ d0, parseFloatQ d1 with
      | some w, some h => (w, h)
      | _, _ => (0, 0)
  | _ => (0, 0)

/-- PageDimen from gcdeck.go: width, height, and the factor that converts
the entry to points. -/
structure PageDimen where
  width : ℚ
  height : ℚ
  unit : ℚ
  deriving DecidableEq, Repr

/-- pagemap from gcdeck.go: the fixed table of named page sizes. -/
def pagemap (s : String) : Option PageDimen :=
  if s = "Letter" then some ⟨792, 612, 1⟩
  else if s = "Legal" then some ⟨1008, 612, 1⟩
  else if s = "Tabloid" then some ⟨1224, 792, 1⟩
  else if s = "ArchA" then some ⟨864, 648, 1⟩
  else if s = "Widescreen" then some ⟨1152, 648, 1⟩
  else if s = "4R" then some ⟨432, 288, 1⟩
  else if s = "Index" then some ⟨360, 216, 1⟩
  else if s = "A2" then some ⟨420, 594, mm2pt⟩
  else if s = "A3" then some ⟨420, 297, mm2pt⟩
  else if s = "A4" then some ⟨297, 210, mm2pt⟩
  else if s = "A5" then some ⟨210, 148, mm2pt⟩
  else none

/-- pagedim from gcdeck.go: a parsed (w, h) literal is used unless both
components are 0, in which case the token is looked up in pagemap with
Letter as the fallback. -/
def pagedim (s : String) : ℚ × ℚ :=
  if (setpagesize s).1 = 0 ∧ (setpagesize s).2 = 0 then
    (((pagemap s).getD ⟨792, 612, 1⟩).width * ((pagemap s).getD ⟨792, 612, 1⟩).unit,
      ((pagemap s).getD ⟨792, 612, 1⟩).height * ((pagemap s).getD ⟨792, 612, 1⟩).unit)
  else setpagesize s

/-- Draw primitives of the external gio canvas surface, as gcdeck invokes
them.  `arcDeg` and `pushRotate` record their angle arguments in degrees:
the source converts them to radians by a fixed positive factor pi/180
(math.Pi is irrational, so the factor is kept symbolic; no claim under
verification depends on the radian value). -/
inductive DrawCall where
  | background (c : Color)
  | line (x1 y1 x2 y2 sw : ℚ) (c : Color)
  | arcDeg (x y w a1 a2 : ℚ) (c : Color)
  | strokedCurve (x1 y1 x2 y2 x3 y3 sw : ℚ) (c : Color)
  | centerRect (x y w h : ℚ) (c : Color)
  | ellipse (x y rx ry : ℚ) (c : Color)
  | circle (x y r : ℚ) (c : Color)
  | polygon (xs ys : List ℚ) (c : Color)
  | text (x y size : ℚ) (s : String) (c : Color)
  | textMid (x y size : ℚ) (s : String) (c : Color)
  | textEnd (x y size : ℚ) (s : String) (c : Color)
  | textWrap (x y size width : ℚ) (s : String) (c : Color)
  | image (name : String) (x y : ℚ) (w h : ℤ) (scale : ℚ)
  | pushRotate (x y deg : ℚ)
  | popTransform
  deriving DecidableEq, Repr

/-- File system and image decoding oracle, standing for the external
`os.ReadFile` / `image.DecodeConfig`: `none` models any read or decode
failure. -/
structure FS where
  fileText : String → Option String
  imageDims : String → Option (ℤ × ℤ)

/-- pct from gcdeck.go: converts percentages to canvas measures. -/
def pct (p m : ℚ) : ℚ := (p / 100) * m

/-- includefile from gcdeck.go: the contents of a file (empty string on a
read error, matching the Go error branch), with each tab expanded to four
spaces by the `codemap` replacer. -/
def includefile (fsys : FS) (filename : String) : String :=
  match fsys.fileText filename with
  | none => ""
  | some data => String.mk (data.data.flatMap (fun c => if c = '\t' then [' ', ' ', ' ', ' '] else [c]))

/-- imageInfo from gcdeck.go: intrinsic dimensions of an image file, (0, 0)
when the file cannot be opened or decoded. -/
def imageInfo (fsys : FS) (s : String) : ℤ × ℤ := (fsys.imageDims s).getD (0, 0)

/-- Wrapping of a call list in the rotation transform that dotext and
dolist apply when rotation > 0 (doc.Rotate ... gc.EndTransform). -/
def wrapRotate (rotation x y : ℚ) (calls : List DrawCall) : List DrawCall :=
  if 0 < rotation then DrawCall.pushRotate x y rotation :: calls ++ [DrawCall.popTransform] else calls

/-- dorect from gcdeck.go. -/
def dorect (x y w h : ℚ) (colorTok : String) (opacity : ℚ) : List DrawCall :=
  [DrawCall.centerRect x y w h { ColorLookup colorTok with a := setop opacity }]

/-- doellipse from gcdeck.go. -/
def doellipse (x y w h : ℚ) (colorTok : String) (opacity : ℚ) : List DrawCall :=
  [DrawCall.ellipse x y (w / 2) (h / 2) { ColorLookup colorTok with a := setop opacity }]

/-- doline from gcdeck.go. -/
def doline (xp1 yp1 xp2 yp2 sw : ℚ) (colorTok : String) (opacity : ℚ) : List DrawCall :=
  [DrawCall.line xp1 yp1 xp2 yp2 sw { ColorLookup colorTok with a := setop opacity }]

/-- doarc from gcdeck.go: the canvas Arc call receives w*2 and the two
angles (degrees here, radians in the source); the stroke width is not
passed on. -/
def doarc (x y w h a1 a2 sw : ℚ) (colorTok : String) (opacity : ℚ) : List DrawCall :=
  [DrawCall.arcDeg x y (w * 2) a1 a2 { ColorLookup colorTok with a := setop opacity }]

/-- docurve from gcdeck.go. -/
def docurve (xp1 yp1 xp2 yp2 xp3 yp3 sw : ℚ) (colorTok : String) (opacity : ℚ) : List DrawCall :=
  [DrawCall.strokedCurve xp1 yp1 xp2 yp2 xp3 yp3 sw { ColorLookup colorTok with a := setop opacity }]

/-- textwrap from gcdeck.go. -/
def textwrap (x y fs wp : ℚ) (tdata colorTok : String) (opacity : ℚ) : List DrawCall :=
  [DrawCall.textWrap x y fs wp tdata { ColorLookup colorTok with a := setop opacity }]

/-- dopoly from gcdeck.go: both coordinate strings are split on single
spaces; mismatched or short lists draw nothing; a coordinate that fails to
parse becomes 0; otherwise exactly one Polygon call is emitted. -/
def dopoly (xc yc : String) (cw ch : ℚ) (colorTok : String) (opacity : ℚ) : List DrawCall :=
  let xs := splitChar ' ' xc.data
  let ys := splitChar ' ' yc.data
  if xs.length ≠ ys.length then []
  else if xs.length < 3 ∨ ys.length < 3 then []
  else
    [DrawCall.polygon (xs.map (fun f => (parseFloatQ f).getD 0))
      (ys.map (fun f => (parseFloatQ f).getD 0))
      { ColorLookup colorTok with a := setop opacity }]

/-- showtext from gcdeck.go: exactly one glyph-run call, whose anchoring
is selected by the alignment token (loadfont is a no-op in the source). -/
def showtext (x y : ℚ) (s : String) (fs : ℚ) (c : Color) (font align : String) : DrawCall :=
  if align = "center" ∨ align = "middle" ∨ align = "mid" ∨ align = "c" then
    DrawCall.textMid x y fs s c
  else if align = "right" ∨ align = "end" ∨ align = "e" then
    DrawCall.textEnd x y fs s c
  else DrawCall.text x y fs s c

/-- Per-line loop of dotext's non-block branch: each line is drawn with
showtext and y is then decremented by `ls`. -/
def textLines (x fs ls : ℚ) (c : Color) (font align : String) : ℚ → List String → List DrawCall
  | _, [] => []
  | y, t :: rest => showtext x y t fs c font align :: textLines x fs ls c font align (y - ls) rest

/-- dotext from gcdeck.go: `code` forces the mono font and draws a light
background panel first; `block` delegates to textwrap; every other type
splits the text on newlines and draws line by line with a vertical advance
of spacing*fs. -/
def dotext (x y fs wp rotation spacing : ℚ) (tdata font align ttype colorTok : String)
    (opacity : ℚ) : List DrawCall :=
  let td := (splitChar '\n' tdata.data).map String.mk
  let c := ColorLookup colorTok
  let font2 := if ttype = "code" then "mono" else font
  let codePanel : List DrawCall :=
    if ttype = "code" then
      dorect (x + wp / 2) ((y - ((td.length : ℚ) * spacing * fs) / 2) + spacing * fs)
        (wp + fs) ((td.length : ℚ) * spacing * fs + fs) "rgb(240,240,240)" 100
    else []
  let body :=
    if ttype = "block" then textwrap x y fs wp tdata colorTok opacity
    else textLines x fs (spacing * fs) c font2 align y td
  wrapRotate rotation x y (codePanel ++ body)

/-- ListItem of the external deck model (the fields gcdeck uses). -/
structure ListItem where
  listText : String
  color : String
  deriving DecidableEq, Repr

/-- Body of dolist's item loop for one item, already holding the running
color `c` for this iteration: the marker and text calls selected by the
list type (`number` prepends "i+1. ", `bullet` draws a circle of radius
fs/4 at (x, y + fs/3) and offsets the text by fs, `center` and the default
draw the bare text). -/
def dolistItem (x fs : ℚ) (font ltype align : String) (i : ℕ) (y : ℚ) (c : Color)
    (tl : ListItem) : List DrawCall :=
  if ltype = "number" then
    [showtext x y (toString (i + 1) ++ ". " ++ tl.listText) fs c font align]
  else if ltype = "bullet" then
    [DrawCall.circle x (y + fs / 3) (fs / 4) c, showtext (x + fs) y tl.listText fs c font align]
  else if ltype = "center" then
    [showtext x y tl.listText fs c font align]
  else
    [showtext x y tl.listText fs c font align]

/-- Item loop of dolist: the running color `c` starts as the list's color
and is replaced whenever an item carries a non-empty per-item color; y
advances downward by `ls` per item. -/
def dolistItems (x fs ls : ℚ) (font ltype align : String) :
    ℕ → ℚ → Color → List ListItem → List DrawCall
  | _, _, _, [] => []
  | i, y, c, tl :: rest =>
      let c2 := if 0 < tl.color.length then ColorLookup tl.color else c
      dolistItem x fs font ltype align i y c2 tl ++
        dolistItems x fs ls font ltype align (i + 1) (y - ls) c2 rest

/-- dolist from gcdeck.go.  The vertical advance is the constant
listspacing * fs * 1.4 (the spacing parameter is not read); the opacity
parameter is likewise never applied to the item color. -/
def dolist (cw x y fs lwidth rotation spacing : ℚ) (list : List ListItem)
    (font ltype align colorTok : String) (opacity : ℚ) : List DrawCall :=
  let font2 := if font = "" then "sans" else font
  wrapRotate rotation x y
    (dolistItems x fs (listspacing * fs * (7 / 5)) font2 ltype align 0 y (ColorLookup colorTok) list)

/-- Rect element of the external deck model (the fields gcdeck uses). -/
structure Rect where
  xp : ℚ
  yp : ℚ
  wp : ℚ
  hp : ℚ
  hr : ℚ
  color : String
  opacity : ℚ
  deriving DecidableEq, Repr

/-- Ellipse element of the external deck model. -/
structure Ellipse where
  xp : ℚ
  yp : ℚ
  wp : ℚ
  hp : ℚ
  hr : ℚ
  color : String
  opacity : ℚ
  deriving DecidableEq, Repr

/-- Curve element of the external deck model. -/
structure Curve where
  xp1 : ℚ
  yp1 : ℚ
  xp2 : ℚ
  yp2 : ℚ
  xp3 : ℚ
  yp3 : ℚ
  sp : ℚ
  color : String
  opacity : ℚ
  deriving DecidableEq, Repr

/-- Arc element of the external deck model. -/
structure Arc where
  xp : ℚ
  yp : ℚ
  wp : ℚ
  hp : ℚ
  sp : ℚ
  a1 : ℚ
  a2 : ℚ
  color : String
  opacity : ℚ
  deriving DecidableEq, Repr

/-- Line element of the external deck model. -/
structure Line where
  xp1 : ℚ
  yp1 : ℚ
  xp2 : ℚ
  yp2 : ℚ
  sp : ℚ
  color : String
  opacity : ℚ
  deriving DecidableEq, Repr

/-- Polygon element of the external deck model: two coordinate strings. -/
structure Polygon where
  xc : String
  yc : String
  color : String
  opacity : ℚ
  deriving DecidableEq, Repr

/-- Text element of the external deck model (`ttype` is the Go field
`Type`). -/
structure Text where
  xp : ℚ
  yp : ℚ
  sp : ℚ
  wp : ℚ
  rotation : ℚ
  lp : ℚ
  tdata : String
  file : String
  font : String
  align : String
  ttype : String
  color : String
  opacity : ℚ
  deriving DecidableEq, Repr

/-- List element of the external deck model, named ListElem here because
the Go type is deck.List (`ltype` is the Go field `Type`). -/
structure ListElem where
  xp : ℚ
  yp : ℚ
  sp : ℚ
  wp : ℚ
  rotation : ℚ
  lp : ℚ
  li : List ListItem
  font : String
  ltype : String
  align : String
  color : String
  opacity : ℚ
  deriving DecidableEq, Repr

/-- Image element of the external deck model. -/
structure Image where
  name : String
  width : ℤ
  height : ℤ
  xp : ℚ
  yp : ℚ
  scale : ℚ
  caption : String
  font : String
  color : String
  align : String
  deriving DecidableEq, Repr

/-- Slide of the external deck model (the fields gcdeck reads). -/
structure Slide where
  bg : String
  fg : String
  gradcolor1 : String
  gradcolor2 : String
  gradpercent : ℚ
  images : List Image
  rects : List Rect
  ellipses : List Ellipse
  curves : List Curve
  arcs : List Arc
  lines : List Line
  polygons : List Polygon
  texts : List Text
  lists : List ListElem
  deriving DecidableEq, Repr

/-- Deck of the external deck model: canvas dimensions (Go ints) and the
slide sequence. -/
structure Deck where
  canvasWidth : ℤ
  canvasHeight : ℤ
  slides : List Slide
  deriving DecidableEq, Repr

/-- A slide with no elements and empty style tokens, for building concrete
decks field by field. -/
def emptySlide : Slide :=
  ⟨"", "", "", "", 0, [], [], [], [], [], [], [], [], []⟩

/-- Default color of geometric elements in showslide. -/
def defaultColor : String := "rgb(127,127,127)"

/-- The (iw, ih) pixel size that showslide's image loop passes to the
canvas Image call: when the declared height is 0 and the width positive,
and the bitmap's intrinsic height is positive, the size is recomputed from
the width as a percentage of the canvas width, keeping the intrinsic
aspect; Go's int conversions truncate toward zero. -/
def imagePlace (fsys : FS) (cw : ℚ) (im : Image) : ℤ × ℤ :=
  if im.height = 0 ∧ 0 < im.width then
    if 0 < (imageInfo fsys im.name).2 then
      (gotrunc (((im.width : ℚ) / 100) * cw),
        gotrunc ((((im.width : ℚ) / 100) * cw) /
          (((imageInfo fsys im.name).1 : ℚ) / ((imageInfo fsys im.name).2 : ℚ))))
    else (im.width, im.height)
  else (im.width, im.height)

/-- Image part of showslide: the Image call, followed by the caption text
call when a caption is present (caption size 1.5, defaults sans / slide
foreground / center, anchored by the alignment switch of the source). -/
def imageCalls (fsys : FS) (cw ch : ℚ) (fg : String) (im : Image) : List DrawCall :=
  DrawCall.image im.name im.xp im.yp (imagePlace fsys cw im).1 (imagePlace fsys cw im).2 im.scale ::
  (if 0 < im.caption.length then
    let capsize : ℚ := 3 / 2
    let font := if im.font = "" then "sans" else im.font
    let colorTok := if im.color = "" then fg else im.color
    let align := if im.align = "" then "center" else im.align
    let iw := (im.width : ℚ) * (im.scale / 100)
    let ih := (im.height : ℚ) * (im.scale / 100)
    let cx :=
      if align = "center" ∨ align = "c" ∨ align = "mid" then im.xp
      else if align = "end" ∨ align = "e" ∨ align = "right" then im.xp + pct (iw / 2) cw
      else im.xp - pct (iw / 2) cw
    let cy := im.yp - (ih / 2) / ch * 100 - capsize * 2
    [showtext cx cy im.caption capsize (ColorLookup colorTok) font align]
  else [])

/-- Rect part of showslide: Hr == 100 replaces the height by
Wp * (cw / ch); otherwise dorect draws Wp x Hp. -/
def rectCalls (cw ch : ℚ) (r : Rect) : List DrawCall :=
  let colorTok := if r.color = "" then defaultColor else r.color
  if r.hr = 100 then
    [DrawCall.centerRect r.xp r.yp r.wp (r.wp * (cw / ch)) { ColorLookup colorTok with a := setop r.opacity }]
  else dorect r.xp r.yp r.wp r.hp colorTok r.opacity

/-- Ellipse part of showslide: Hr == 100 draws a circle of radius Wp/2;
otherwise doellipse draws half-axes Wp/2 and Hp/2. -/
def ellipseCalls (e : Ellipse) : List DrawCall :=
  let colorTok := if e.color = "" then defaultColor else e.color
  if e.hr = 100 then
    [DrawCall.circle e.xp e.yp (e.wp / 2) { ColorLookup colorTok with a := setop e.opacity }]
  else doellipse e.xp e.yp e.wp e.hp colorTok e.opacity

/-- Curve part of showslide (stroke width defaults to 0.2). -/
def curveCalls (cu : Curve) : List DrawCall :=
  let colorTok := if cu.color = "" then defaultColor else cu.color
  let sp := if cu.sp = 0 then 1 / 5 else cu.sp
  docurve cu.xp1 cu.yp1 cu.xp2 cu.yp2 cu.xp3 cu.yp3 sp colorTok cu.opacity

/-- Arc part of showslide (stroke width defaults to 0.2; doarc receives
half the width and height). -/
def arcCalls (a : Arc) : List DrawCall :=
  let colorTok := if a.color = "" then defaultColor else a.color
  let sp := if a.sp = 0 then 1 / 5 else a.sp
  doarc a.xp a.yp (a.wp / 2) (a.hp / 2) a.a1 a.a2 sp colorTok a.opacity

/-- Line part of showslide (stroke width defaults to 0.2). -/
def lineCalls (l : Line) : List DrawCall :=
  let colorTok := if l.color = "" then defaultColor else l.color
  let sp := if l.sp = 0 then 1 / 5 else l.sp
  doline l.xp1 l.yp1 l.xp2 l.yp2 sp colorTok l.opacity

/-- Polygon part of showslide. -/
def polyCalls (cw ch : ℚ) (p : Polygon) : List DrawCall :=
  let colorTok := if p.color = "" then defaultColor else p.color
  dopoly p.xc p.yc cw ch colorTok p.opacity

/-- Text part of showslide: color defaults to the slide foreground, font
to sans, the line spacing factor Lp to the constant linespacing (1.8), and
dotext receives Lp multiplied by 1.2 as its spacing argument. -/
def textCalls (fsys : FS) (fg : String) (t : Text) : List DrawCall :=
  let colorTok := if t.color = "" then fg else t.color
  let font := if t.font = "" then "sans" else t.font
  let tdata := if t.file ≠ "" then includefile fsys t.file else t.tdata
  let lp := if t.lp = 0 then linespacing else t.lp
  dotext t.xp t.yp t.sp t.wp t.rotation (lp * (6 / 5)) tdata font t.align t.ttype colorTok t.opacity

/-- List part of showslide: color defaults to the slide foreground, Lp to
listspacing, the wrap width to listwrap. -/
def listCalls (cw : ℚ) (fg : String) (l : ListElem) : List DrawCall :=
  let colorTok := if l.color = "" then fg else l.color
  let lp := if l.lp = 0 then listspacing else l.lp
  let wp := if l.wp = 0 then listwrap else l.wp
  dolist cw l.xp l.yp l.sp wp l.rotation lp l.li l.font l.ltype l.align colorTok l.opacity

/-- showslide from gcdeck.go: an out-of-range index draws nothing;
otherwise the background (default white) is drawn, then images, rects,
ellipses, curves, arcs, lines, polygons, texts and lists in that order.
The gradient routine of the source is an intentional no-op, and the
GradPercent normalization feeds only that no-op, so neither emits a
call. -/
def showslide (fsys : FS) (d : Deck) (n : ℤ) : List DrawCall :=
  if n < 0 ∨ (d.slides.length : ℤ) - 1 < n then []
  else
    match d.slides.get? n.toNat with
    | none => []
    | some slide =>
        let cw : ℚ := (d.canvasWidth : ℚ)
        let ch : ℚ := (d.canvasHeight : ℚ)
        let fg := if slide.fg = "" then "black" else slide.fg
        DrawCall.background (ColorLookup (if slide.bg = "" then "white" else slide.bg)) ::
        (slide.images.flatMap (imageCalls fsys cw ch fg) ++
          slide.rects.flatMap (rectCalls cw ch) ++
          slide.ellipses.flatMap ellipseCalls ++
          slide.curves.flatMap curveCalls ++
          slide.arcs.flatMap arcCalls ++
          slide.lines.flatMap lineCalls ++
          slide.polygons.flatMap (polyCalls cw ch) ++
          slide.texts.flatMap (textCalls fsys fg) ++
          slide.lists.flatMap (listCalls cw fg))

/-- Navigation inputs of kbpointer that mutate the slide index: the
keyboard bindings for first/last/forward/backward and the three pointer
buttons. -/
inductive NavEvent where
  | first
  | last
  | forward
  | backward
  | pointerPrimary
  | pointerSecondary
  | pointerTertiary
  deriving DecidableEq, Repr

/-- Effect of one kbpointer event on the slide index, with `ns` the last
valid index (len(deck.Slide) - 1) as passed to kbpointer by the frame
loop. -/
def applyNav (ns n : ℤ) : NavEvent → ℤ
  | NavEvent.first => 0
  | NavEvent.last => ns
  | NavEvent.forward => n + 1
  | NavEvent.backward => n - 1
  | NavEvent.pointerPrimary => n + 1
  | NavEvent.pointerSecondary => n - 1
  | NavEvent.pointerTertiary => 0

/-- kbpointer from gcdeck.go: the drained events are applied in delivery
order, each mutating the index independently. -/
def kbpointer (ns : ℤ) (events : List NavEvent) (n : ℤ) : ℤ :=
  events.foldl (applyNav ns) n

/-- Clamping step of the frame loop in slidedeck: an index above nslides
wraps to 0, then a negative index wraps to nslides. -/
def clampSlide (nslides n : ℤ) : ℤ :=
  let n1 := if nslides < n then 0 else n
  if n1 < 0 then nslides else n1

/-- Oracle with no readable files and no decodable images. -/
def emptyFS : FS := ⟨fun _ => none, fun _ => none⟩

/-- Observation helper: the color with which dolist draws an item, as the
fold of the per-item override rule over the items seen so far, starting
from the list's color handle. -/
def overrideColor (c : Color) (items : List ListItem) : Color :=
  items.foldl (fun acc tl => if 0 < tl.color.length then ColorLookup tl.color else acc) c

/-- On nonnegative rationals, truncation toward zero agrees with the
floor. -/
theorem gotrunc_eq_floor {q : ℚ} (h : 0 ≤ q) : gotrunc q = ⌊q⌋ := by
  rw [Rat.floor_def, gotrunc, Int.tdiv_eq_ediv (Rat.num_nonneg.mpr h) (by positivity)]

/-- C5: setop yields 255 for every nonpositive opacity, and for positive v
the truncation toward zero of 255*v/100; in particular setop 0 = 255,
setop 100 = 255, setop 50 = 127 and setop (-5) = 255. -/
theorem C5_setop_spec :
    (∀ v : ℚ, v ≤ 0 → setop v = 255) ∧
    (∀ v : ℚ, 0 < v → setop v = gotrunc (255 * v / 100)) ∧
    setop 0 = 255 ∧ setop 100 = 255 ∧ setop 50 = 127 ∧ setop (-5) = 255 := by
  refine ⟨fun v h => by rw [setop, if_neg (not_lt.mpr h)], fun v h => ?_, ?_, ?_, ?_, ?_⟩
  · rw [setop, if_pos h, gotrunc_eq_floor (by positivity), mul_div_assoc]
  · norm_num [setop]
  · norm_num [setop]
  · norm_num [setop]
  · norm_num [setop]

/-- Witness for C5 at v = 50. -/
theorem C5_setop_spec_witness : (0 : ℚ) < 50 ∧ setop 50 = gotrunc (255 * 50 / 100) :=
  ⟨by norm_num, C5_setop_spec.2.1 50 (by norm_num)⟩

/-- C9: showslide with a negative index or one past the last slide emits
no draw call at all. -/
theorem C9_showslide_out_of_range (fsys : FS) (d : Deck) (n : ℤ)
    (h : n < 0 ∨ (d.slides.length : ℤ) - 1 < n) :
    showslide fsys d n = [] := by
  unfold showslide
  rw [if_pos h]

/-- Witness for C9 on a one-slide deck at index 5. -/
theorem C9_showslide_out_of_range_witness :
    ((5 : ℤ) < 0 ∨ (((⟨1000, 500, [emptySlide]⟩ : Deck).slides.length : ℤ) - 1 < 5)) ∧
    showslide emptyFS ⟨1000, 500, [emptySlide]⟩ 5 = [] :=
  ⟨by decide, C9_showslide_out_of_range emptyFS ⟨1000, 500, [emptySlide]⟩ 5 (by decide)⟩

/-- C2: for a deck with at least one slide (ns = slideCount - 1 ≥ 0) the
frame loop's clamp always lands in [0, ns]; stepping forward from ns then
clamping yields 0, stepping backward from 0 yields ns, jump-to-last yields
ns from any index; in particular with slideCount = 5 (ns = 4). -/
theorem C2_navigation_wraparound (ns : ℤ) (h : 0 ≤ ns) :
    (∀ n : ℤ, 0 ≤ clampSlide ns n ∧ clampSlide ns n ≤ ns) ∧
    clampSlide ns (applyNav ns ns NavEvent.forward) = 0 ∧
    clampSlide ns (applyNav ns 0 NavEvent.backward) = ns ∧
    (∀ n : ℤ, clampSlide ns (applyNav ns n NavEvent.last) = ns) ∧
    clampSlide 4 (applyNav 4 4 NavEvent.forward) = 0 ∧
    clampSlide 4 (applyNav 4 0 NavEvent.backward) = 4 ∧
    (∀ n : ℤ, clampSlide 4 (applyNav 4 n NavEvent.last) = 4) := by
  simp only [clampSlide, applyNav]
  refine ⟨fun n => ?_, ?_, ?_, fun n => ?_, ?_, ?_, fun n => ?_⟩ <;> split_ifs <;> omega

/-- Witness for C2 at ns = 4 (slideCount 5). -/
theorem C2_navigation_wraparound_witness :
    (0 : ℤ) ≤ 4 ∧ clampSlide 4 (applyNav 4 4 NavEvent.forward) = 0 :=
  ⟨by norm_num, (C2_navigation_wraparound 4 (by norm_num)).2.1⟩

/-- C10: a WxH literal with one zero field is accepted verbatim
(pagedim "0x792" = (0, 792)); "0x0" falls through to the Letter preset;
in general the preset fallback is taken only when both parsed fields are
zero. -/
theorem C10_pagedim_zero_fields :
    pagedim "0x792" = (0, 792) ∧
    pagedim "0x0" = pagedim "Letter" ∧
    (∀ s : String, ¬((setpagesize s).1 = 0 ∧ (setpagesize s).2 = 0) →
      pagedim s = setpagesize s) := by
  refine ⟨by decide, ?_, fun s h => by unfold pagedim; rw [if_neg h]⟩
  have h1 : setpagesize "0x0" = (0, 0) := by decide
  have h2 : setpagesize "Letter" = (0, 0) := by decide
  have h3 : pagemap "Letter" = some ⟨792, 612, 1⟩ := by decide
  have h4 : pagemap "0x0" = none := by decide
  simp [pagedim, h1, h2, h3, h4]

/-- Witness for C10 at the token 0x792. -/
theorem C10_pagedim_zero_fields_witness :
    ¬((setpagesize "0x792").1 = 0 ∧ (setpagesize "0x792").2 = 0) ∧
    pagedim "0x792" = setpagesize "0x792" :=
  ⟨by decide, C10_pagedim_zero_fields.2.2 "0x792" (by decide)⟩
/-- splitChar finds no separator in a list free of it. -/
theorem splitChar_eq_single {sep : Char} :
    ∀ {l : List Char}, (∀ c ∈ l, c ≠ sep) → splitChar sep l = [l]
  | [], _ => rfl
  | c :: rest, h => by
      have hr : splitChar sep rest = [rest] :=
        splitChar_eq_single (fun c2 hc2 => h c2 (List.mem_cons_of_mem c hc2))
      rw [splitChar, hr]
      simp [h c (List.mem_cons_self c rest)]

/-- A nonempty run of decimal digits parses to its decimal value. -/
theorem parseDec_digits {l : List Char} (h : l ≠ []) (hd : l.all Char.isDigit = true) :
    parseDec l = some (digitsVal l) := by
  have hs : splitChar '.' l = [l] := by
    refine splitChar_eq_single (fun c hc heq => ?_)
    have := List.all_eq_true.mp hd c hc
    rw [heq] at this
    exact absurd this (by decide)
  rw [parseDec, hs]
  simp [h, hd]

/-- parseMantExp on a nonempty run of decimal digits: no exponent marker
occurs, so the mantissa is the whole run. -/
theorem parseMantExp_digits {l : List Char} (h : l ≠ []) (hd : l.all Char.isDigit = true) :
    parseMantExp l = some (digitsVal l) := by
  have hmap : l.map eLower = l := by
    have hid : ∀ c ∈ l, eLower c = id c := by
      intro c hc
      have hcd := List.all_eq_true.mp hd c hc
      rw [eLower, if_neg, id]
      intro he
      rw [he] at hcd
      exact absurd hcd (by decide)
    rw [List.map_congr_left hid, List.map_id]
  have hsplit : splitChar 'e' l = [l] := by
    refine splitChar_eq_single (fun c hc heq => ?_)
    have hcd := List.all_eq_true.mp hd c hc
    rw [heq] at hcd
    exact absurd hcd (by decide)
  unfold parseMantExp
  rw [hmap, hsplit]
  exact parseDec_digits h hd

/-- parseFloatQ on a nonempty run of decimal digits. -/
theorem parseFloatQ_digits {l : List Char} (h : l ≠ []) (hd : l.all Char.isDigit = true) :
    parseFloatQ l = some (digitsVal l) := by
  cases l with
  | nil => exact absurd rfl h
  | cons c rest =>
      have hc : c.isDigit = true := (List.all_eq_true.mp hd) c (List.mem_cons_self c rest)
      have hm1 : ¬(c = '-') := fun he => by rw [he] at hc; exact absurd hc (by decide)
      have hp1 : ¬(c = '+') := fun he => by rw [he] at hc; exact absurd hc (by decide)
      rw [parseFloatQ, if_neg hm1, if_neg hp1]
      exact parseMantExp_digits h hd

/-- C6 counterexample: "0x0" is a token of two numeric fields separated by
a non-digit, its parsed pair is (0, 0), yet pagedim does not return that
pair (it falls through to the Letter preset). -/
theorem C6_counterexample :
    fieldsFunc (fun c => !(goIsNumber c)) "0x0".data = [['0'], ['0']] ∧
    setpagesize "0x0" = (0, 0) ∧
    pagedim "0x0" ≠ ((0 : ℚ), (0 : ℚ)) := by
  refine ⟨by decide, by decide, ?_⟩
  have h1 : setpagesize "0x0" = (0, 0) := by decide
  have h4 : pagemap "0x0" = none := by decide
  simp [pagedim, h1, h4]

/-- A token whose field split does not have exactly two fields parses to
the (0, 0) sentinel. -/
theorem setpagesize_not_two {s : String}
    (hlen : (fieldsFunc (fun c => !(goIsNumber c)) s.data).length ≠ 2) :
    setpagesize s = (0, 0) := by
  unfold setpagesize
  rcases hfld : fieldsFunc (fun c => !(goIsNumber c)) s.data with _ | ⟨a, _ | ⟨b, _ | ⟨c, r⟩⟩⟩
  · rfl
  · rfl
  · rw [hfld] at hlen
    exact absurd rfl hlen
  · rfl

/-- C6 (amended): an ASCII token of two nonempty numeric fields separated
by any run of non-digits parses to its two values provided they are not
both zero (when both are zero the token falls through to preset lookup);
separators are irrelevant; and every token that is neither such a literal
(its split does not give two fields) nor a known preset name resolves like
Letter.  (The ASCII bound is where the digit model of unicode.IsNumber is
exact: the only ASCII runes of Unicode category N are 0-9.) -/
theorem C6_pagedim_literal (s : String) (d0 d1 : List Char)
    (hascii : ∀ c ∈ s.data, c.toNat < 128)
    (hf : fieldsFunc (fun c => !(goIsNumber c)) s.data = [d0, d1])
    (h0 : d0 ≠ []) (h0d : d0.all Char.isDigit = true)
    (h1 : d1 ≠ []) (h1d : d1.all Char.isDigit = true)
    (hnz : ¬(digitsVal d0 = 0 ∧ digitsVal d1 = 0)) :
    pagedim s = ((digitsVal d0 : ℚ), (digitsVal d1 : ℚ)) ∧
    (∀ s2 : String, (fieldsFunc (fun c => !(goIsNumber c)) s2.data).length ≠ 2 →
      pagemap s2 = none → pagedim s2 = pagedim "Letter") ∧
    pagedim "612x792" = (612, 792) ∧
    pagedim "612,792" = (612, 792) ∧
    pagedim "612 792" = (612, 792) ∧
    pagedim "bogus" = pagedim "Letter" := by
  have hset : setpagesize s = ((digitsVal d0 : ℚ), (digitsVal d1 : ℚ)) := by
    unfold setpagesize
    rw [hf]
    simp [parseFloatQ_digits h0 h0d, parseFloatQ_digits h1 h1d]
  have hLset : setpagesize "Letter" = (0, 0) := by decide
  have hLmap : pagemap "Letter" = some ⟨792, 612, 1⟩ := by decide
  refine ⟨?_, fun s2 hlen hnone => ?_, by decide, by decide, by decide, ?_⟩
  · unfold pagedim
    rw [hset, if_neg]
    simp only [not_and]
    intro hz0 hz1
    exact hnz ⟨Nat.cast_eq_zero.mp hz0, Nat.cast_eq_zero.mp hz1⟩
  · have hs2 : setpagesize s2 = (0, 0) := setpagesize_not_two hlen
    simp [pagedim, hs2, hLset, hnone, hLmap]
  · have ha : setpagesize "bogus" = (0, 0) := by decide
    have hc : pagemap "bogus" = none := by decide
    simp [pagedim, ha, hLset, hc, hLmap]

/-- Witness for C6 at the token 612x792 (literal part) and the token
"unknown-token" (general fallback part). -/
theorem C6_pagedim_literal_witness :
    pagedim "612x792" =
      ((digitsVal ['6', '1', '2'] : ℚ), (digitsVal ['7', '9', '2'] : ℚ)) ∧
    pagedim "unknown-token" = pagedim "Letter" :=
  ⟨(C6_pagedim_literal "612x792" ['6', '1', '2'] ['7', '9', '2'] (by decide)
      (by decide) (by decide) (by decide) (by decide) (by decide) (by decide)).1,
    (C6_pagedim_literal "612x792" ['6', '1', '2'] ['7', '9', '2'] (by decide)
      (by decide) (by decide) (by decide) (by decide) (by decide) (by decide)).2.1
      "unknown-token" (by decide) (by decide)⟩
/-- C7: dopoly draws nothing when the space-separated coordinate counts
differ or are both below 3; exactly 3 matched fields give exactly one
Polygon call; a field that fails to parse becomes coordinate 0 while the
polygon is still drawn. -/
theorem C7_dopoly_validation (xc yc : String) (cw ch : ℚ) (colorTok : String) (op : ℚ) :
    ((splitChar ' ' xc.data).length ≠ (splitChar ' ' yc.data).length →
      dopoly xc yc cw ch colorTok op = []) ∧
    ((splitChar ' ' xc.data).length < 3 ∧ (splitChar ' ' yc.data).length < 3 →
      dopoly xc yc cw ch colorTok op = []) ∧
    ((splitChar ' ' xc.data).length = 3 → (splitChar ' ' yc.data).length = 3 →
      (dopoly xc yc cw ch colorTok op).length = 1) ∧
    (∀ (i : ℕ) (fld : List Char),
      (splitChar ' ' xc.data).length = (splitChar ' ' yc.data).length →
      3 ≤ (splitChar ' ' xc.data).length →
      (splitChar ' ' xc.data)[i]? = some fld → parseFloatQ fld = none →
      dopoly xc yc cw ch colorTok op =
        [DrawCall.polygon ((splitChar ' ' xc.data).map (fun f => (parseFloatQ f).getD 0))
          ((splitChar ' ' yc.data).map (fun f => (parseFloatQ f).getD 0))
          { ColorLookup colorTok with a := setop op }] ∧
      (((splitChar ' ' xc.data).map (fun f => (parseFloatQ f).getD 0))[i]? = some 0)) ∧
    (∀ (i : ℕ) (fld : List Char),
      (splitChar ' ' xc.data).length = (splitChar ' ' yc.data).length →
      3 ≤ (splitChar ' ' xc.data).length →
      (splitChar ' ' yc.data)[i]? = some fld → parseFloatQ fld = none →
      dopoly xc yc cw ch colorTok op =
        [DrawCall.polygon ((splitChar ' ' xc.data).map (fun f => (parseFloatQ f).getD 0))
          ((splitChar ' ' yc.data).map (fun f => (parseFloatQ f).getD 0))
          { ColorLookup colorTok with a := setop op }] ∧
      (((splitChar ' ' yc.data).map (fun f => (parseFloatQ f).getD 0))[i]? = some 0)) := by
  refine ⟨fun h => ?_, fun h => ?_, fun hx hy => ?_, fun i fld he h3 hget hp => ?_,
    fun i fld he h3 hget hp => ?_⟩
  · simp only [dopoly]
    rw [if_pos h]
  · simp only [dopoly]
    split_ifs with h1 h2
    · rfl
    · rfl
    · exact absurd (Or.inl h.1) h2
  · simp only [dopoly]
    split_ifs with h1 h2
    · rw [hx, hy] at h1
      exact absurd rfl h1
    · rw [hx, hy] at h2
      omega
    · rfl
  · simp only [dopoly]
    rw [if_neg (by omega), if_neg (by omega)]
    refine ⟨rfl, ?_⟩
    rw [List.getElem?_map, hget]
    simp [hp]
  · simp only [dopoly]
    rw [if_neg (by omega), if_neg (by omega)]
    refine ⟨rfl, ?_⟩
    rw [List.getElem?_map, hget]
    simp [hp]

/-- Witness for C7: with "1 2 z" / "4 5 6" the x field "z" fails to parse
and is drawn as 0; with "1 2 3" / "4 x 6" the y field "x" fails to parse
and is drawn as 0. -/
theorem C7_dopoly_validation_witness :
    (((splitChar ' ' "1 2 z".data).map (fun f => (parseFloatQ f).getD 0))[2]? = some 0) ∧
    (((splitChar ' ' "4 x 6".data).map (fun f => (parseFloatQ f).getD 0))[1]? = some 0) :=
  ⟨((C7_dopoly_validation "1 2 z" "4 5 6" 0 0 "red" 100).2.2.2.1 2 ['z']
      (by decide) (by decide) (by decide) (by decide)).2,
    ((C7_dopoly_validation "1 2 3" "4 x 6" 0 0 "red" 100).2.2.2.2 1 ['x']
      (by decide) (by decide) (by decide) (by decide)).2⟩

/-- C4: with Hr = 100 a rect is drawn with height Wp * (cw/ch) regardless
of Hp, and an ellipse with Hr = 100 is drawn as a circle of radius Wp/2;
on a 1000x500 canvas with Wp = 20 the rect height is 40 even though Hp is
75. -/
theorem C4_aspect_correction (cw ch : ℚ) (r : Rect) (e : Ellipse)
    (hr : r.hr = 100) (he : e.hr = 100) :
    rectCalls cw ch r =
      [DrawCall.centerRect r.xp r.yp r.wp (r.wp * (cw / ch))
        { ColorLookup (if r.color = "" then defaultColor else r.color) with a := setop r.opacity }] ∧
    ellipseCalls e =
      [DrawCall.circle e.xp e.yp (e.wp / 2)
        { ColorLookup (if e.color = "" then defaultColor else e.color) with a := setop e.opacity }] ∧
    rectCalls 1000 500 ⟨50, 50, 20, 75, 100, "red", 100⟩ =
      [DrawCall.centerRect 50 50 20 40 ⟨"red", 255⟩] := by
  refine ⟨?_, ?_, ?_⟩
  · simp only [rectCalls, if_pos hr]
  · simp only [ellipseCalls, if_pos he]
  · norm_num [rectCalls, ColorLookup, setop]
    exact fun h => absurd h (by decide)

/-- Witness for C4 at the 1000x500 canvas example. -/
theorem C4_aspect_correction_witness :
    rectCalls 1000 500 ⟨50, 50, 20, 75, 100, "red", 100⟩ =
      [DrawCall.centerRect 50 50 20 40 ⟨"red", 255⟩] :=
  (C4_aspect_correction 1000 500 ⟨50, 50, 20, 75, 100, "red", 100⟩
    ⟨50, 50, 30, 75, 100, "", 100⟩ rfl rfl).2.2
/-- Oracle whose images all decode to 200x100 pixels. -/
def fsAllImages : FS := ⟨fun _ => none, fun _ => some (200, 100)⟩

/-- Image fixture: declared width 30, declared height 0. -/
def img30 : Image := ⟨"pic.png", 30, 0, 50, 50, 100, "", "", "", ""⟩

/-- A 1000x500 deck with one slide holding an unreadable image (declared
width 30, height 0) and one line element. -/
def brokenImageDeck : Deck :=
  ⟨1000, 500,
    [{ emptySlide with
        images := [⟨"missing.png", 30, 0, 50, 50, 100, "", "", "", ""⟩],
        lines := [⟨10, 10, 90, 10, 1, "red", 100⟩] }]⟩

/-- C8: an image with declared height 0 and positive width is placed at
display width (width/100)*cw and display height displayWidth/(nw/nh),
truncated to ints as in the source, whenever the bitmap decodes with a
positive intrinsic height; an unreadable bitmap counts as (0, 0), no
correction is applied (the height stays 0), and the rest of the slide
still renders (shown on brokenImageDeck, whose line is still drawn). -/
theorem C8_image_aspect (fsys : FS) (cw : ℚ) (im : Image)
    (h0 : im.height = 0) (hw : 0 < im.width) :
    (∀ nw nh : ℤ, fsys.imageDims im.name = some (nw, nh) → 0 < nh →
      imagePlace fsys cw im =
        (gotrunc (((im.width : ℚ) / 100) * cw),
          gotrunc ((((im.width : ℚ) / 100) * cw) / ((nw : ℚ) / (nh : ℚ))))) ∧
    (fsys.imageDims im.name = none → imagePlace fsys cw im = (im.width, 0)) ∧
    showslide emptyFS brokenImageDeck 0 =
      [DrawCall.background ⟨"white", 255⟩,
        DrawCall.image "missing.png" 50 50 30 0 100,
        DrawCall.line 10 10 90 10 1 ⟨"red", 255⟩] := by
  refine ⟨fun nw nh hsome hnh => ?_, fun hnone => ?_, ?_⟩
  · simp only [imagePlace, imageInfo, hsome, Option.getD_some]
    rw [if_pos ⟨h0, hw⟩, if_pos hnh]
  · simp only [imagePlace, imageInfo, hnone, Option.getD_none]
    rw [if_pos ⟨h0, hw⟩, if_neg (by decide), h0]
  · norm_num [showslide, brokenImageDeck, emptySlide, emptyFS, imageCalls, imagePlace,
      imageInfo, lineCalls, doline, ColorLookup, setop]
    exact fun h => absurd h (by decide)

/-- Witness for C8: a decodable 200x100 bitmap at declared width 30 on a
canvas of width 1000. -/
theorem C8_image_aspect_witness :
    imagePlace fsAllImages 1000 img30 =
      (gotrunc ((((30 : ℤ) : ℚ) / 100) * 1000),
        gotrunc (((((30 : ℤ) : ℚ) / 100) * 1000) / (((200 : ℤ) : ℚ) / ((100 : ℤ) : ℚ)))) :=
  (C8_image_aspect fsAllImages 1000 img30 rfl (by decide)).1 200 100 rfl (by decide)
/-- In dotext's line loop, line i sits i*ls below the starting y. -/
theorem textLines_get (x fs ls : ℚ) (c : Color) (font align : String) :
    ∀ (td : List String) (y : ℚ) (i : ℕ),
      (textLines x fs ls c font align y td)[i]? =
        (td[i]?).map (fun s => showtext x (y - (i : ℚ) * ls) s fs c font align)
  | [], y, i => by simp [textLines]
  | t :: rest, y, 0 => by simp [textLines]
  | t :: rest, y, i + 1 => by
      simp only [textLines, List.getElem?_cons_succ]
      rw [textLines_get x fs ls c font align rest (y - ls) i]
      cases h : rest[i]? with
      | none => simp
      | some s =>
          simp only [Option.map_some']
          have harith : y - ls - (i : ℚ) * ls = y - ((i + 1 : ℕ) : ℚ) * ls := by
            push_cast
            ring
          rw [harith]

/-- Text fixture for C3: two lines "a" and "b", font size 10, unset Lp,
default type, anchored at (50, 80). -/
def cex3Text : Text := ⟨50, 80, 10, 0, 0, 0, "a\nb", "", "", "", "", "", 100⟩

/-- C3 counterexample: with Lp unset (default 1.8) and font size 10, the
second line is drawn at y = 80 - 21.6 = 292/5, not at
80 - linespacing * 10 = 62: the advance per line is Lp*1.2*fontSize. -/
theorem C3_counterexample :
    textCalls emptyFS "black" cex3Text =
      [DrawCall.text 50 80 10 "a" ⟨"black", 255⟩,
        DrawCall.text 50 (292 / 5) 10 "b" ⟨"black", 255⟩] ∧
    (292 / 5 : ℚ) ≠ 80 - linespacing * 10 := by
  constructor
  · have hsplit : (splitChar '\n' "a\nb".data).map String.mk = ["a", "b"] := by decide
    norm_num [cex3Text, textCalls, dotext, wrapRotate, textLines, hsplit, showtext,
      ColorLookup, linespacing]
    simp
  · norm_num [linespacing]

/-- C3 (amended): for a text element whose type is neither block nor code,
the text is split on literal newlines and drawn by the per-line loop with
a vertical advance of Lp * 1.2 * fontSize (not Lp * fontSize), Lp
defaulting to 1.8 when unset; line i of the loop sits i advances below the
starting y. -/
theorem C3_text_line_advance (fsys : FS) (fg : String) (t : Text)
    (hb : t.ttype ≠ "block") (hc : t.ttype ≠ "code") :
    textCalls fsys fg t =
      wrapRotate t.rotation t.xp t.yp
        (textLines t.xp t.sp ((if t.lp = 0 then linespacing else t.lp) * (6 / 5) * t.sp)
          (ColorLookup (if t.color = "" then fg else t.color))
          (if t.font = "" then "sans" else t.font) t.align t.yp
          ((splitChar '\n' (if t.file ≠ "" then includefile fsys t.file else t.tdata).data).map
            String.mk)) ∧
    (∀ (x fs ls : ℚ) (c : Color) (font align : String) (td : List String) (y : ℚ) (i : ℕ),
      (textLines x fs ls c font align y td)[i]? =
        (td[i]?).map (fun s => showtext x (y - (i : ℚ) * ls) s fs c font align)) := by
  constructor
  · simp only [textCalls, dotext, if_neg hb, if_neg hc, List.nil_append]
  · exact fun x fs ls c font align td y i => textLines_get x fs ls c font align td y i

/-- Witness for C3 on the concrete two-line element. -/
theorem C3_text_line_advance_witness :
    textCalls emptyFS "black" cex3Text =
      wrapRotate cex3Text.rotation cex3Text.xp cex3Text.yp
        (textLines cex3Text.xp cex3Text.sp
          ((if cex3Text.lp = 0 then linespacing else cex3Text.lp) * (6 / 5) * cex3Text.sp)
          (ColorLookup (if cex3Text.color = "" then "black" else cex3Text.color))
          (if cex3Text.font = "" then "sans" else cex3Text.font) cex3Text.align cex3Text.yp
          ((splitChar '\n'
              (if cex3Text.file ≠ "" then includefile emptyFS cex3Text.file
                else cex3Text.tdata).data).map String.mk)) :=
  (C3_text_line_advance emptyFS "black" cex3Text (by decide) (by decide)).1
/-- The dolist item loop draws item j with the override color folded over
the first j+1 items, at j advances below the starting y. -/
theorem dolistItems_eq (x fs ls : ℚ) (font ltype align : String) :
    ∀ (items : List ListItem) (i : ℕ) (y : ℚ) (c : Color),
      dolistItems x fs ls font ltype align i y c items =
        (List.range items.length).flatMap (fun j =>
          dolistItem x fs font ltype align (i + j) (y - (j : ℚ) * ls)
            (overrideColor c (items.take (j + 1))) (items.getD j ⟨"", ""⟩))
  | [], i, y, c => by simp [dolistItems]
  | tl :: rest, i, y, c => by
      simp only [dolistItems]
      rw [dolistItems_eq x fs ls font ltype align rest (i + 1) (y - ls)
        (if 0 < tl.color.length then ColorLookup tl.color else c)]
      rw [List.length_cons, List.range_succ_eq_map, List.flatMap_cons, List.flatMap_map]
      congr 1
      · simp [overrideColor]
      · simp only [List.flatMap_def]
        refine congrArg List.flatten (List.map_congr_left ?_)
        intro j hj
        have h1 : i + 1 + j = i + (j + 1) := by omega
        have h2 : y - ls - (j : ℚ) * ls = y - ((j + 1 : ℕ) : ℚ) * ls := by
          push_cast
          ring
        simp only [Function.comp_apply, Nat.succ_eq_add_one, List.take_succ_cons,
          List.getD_cons_succ, overrideColor, List.foldl_cons]
        rw [h1, h2]

/-- C1 counterexample: a list with default color "blue" whose first item
overrides to "red" and whose second item has no override draws the second
item in red, not in the list's default blue. -/
theorem C1_counterexample :
    (dolist 100 10 50 2 95 0 0 [⟨"a", "red"⟩, ⟨"b", ""⟩] "" "" "" "blue" 100)[1]? =
      some (DrawCall.text 10 (50 - 126 / 25) 2 "b" ⟨"red", 255⟩) ∧
    (⟨"red", 255⟩ : Color) ≠ ColorLookup "blue" := by
  constructor
  · norm_num [dolist, dolistItems, dolistItem, wrapRotate, showtext, ColorLookup, listspacing]
    simp
    decide
  · decide

/-- C1 (amended): in dolist a per-item color override persists beyond its
item: item j is drawn with the override of the nearest item at or before j
that carries one (the list's color when none), so a later item without an
override keeps the previous override instead of reverting to the list's
default.  Concretely, with default "blue" and items [("a" override red),
("b" no override)], item b is drawn red. -/
theorem C1_dolist_override (cw x y fs lwidth rotation spacing : ℚ)
    (items : List ListItem) (font ltype align colorTok : String) (op : ℚ) :
    dolist cw x y fs lwidth rotation spacing items font ltype align colorTok op =
      wrapRotate rotation x y
        ((List.range items.length).flatMap (fun j =>
          dolistItem x fs (if font = "" then "sans" else font) ltype align j
            (y - (j : ℚ) * (listspacing * fs * (7 / 5)))
            (overrideColor (ColorLookup colorTok) (items.take (j + 1)))
            (items.getD j ⟨"", ""⟩))) ∧
    dolist 100 10 50 2 95 0 0 [⟨"a", "red"⟩, ⟨"b", ""⟩] "" "" "" "blue" 100 =
      [DrawCall.text 10 50 2 "a" ⟨"red", 255⟩,
        DrawCall.text 10 (50 - 126 / 25) 2 "b" ⟨"red", 255⟩] := by
  constructor
  · simp only [dolist]
    rw [dolistItems_eq]
    simp
  · norm_num [dolist, dolistItems, dolistItem, wrapRotate, showtext, ColorLookup, listspacing]
    simp
    decide
end Gcdeck
